import Mathlib

set_option linter.unusedVariables false

namespace Inspector

/-!
Shallow embedding of `packages/action/src/run.ts` of graphql-inspector.

The source orchestrates a CI schema-comparison run: it reads configuration
inputs, resolves the rule list, optionally loads a usage-check hook, splits
the schema pointer, substitutes pull-request merge refs, loads the two
schema files, builds schema objects, invokes the diff engine, applies the
conclusion-override policy and reports the outcome.

External collaborators (the `@actions/core` logging primitives, the GitHub
client, the file loader, the graphql library, `require`, the diff engine and
the summary generator) are modelled as oracle functions stored in `Env`;
fallible collaborators return `Except`.  The run itself is modelled as a
pure function producing the ordered list of observable events (log lines,
outputs, failure signals, collaborator invocations) plus an optional
propagated exception, faithfully following the control flow of `run.ts`.
-/

/-- Conclusion enum from `helpers/types.ts`: the two-valued check outcome. -/
inductive CheckConclusion where
  | Success
  | Failure
deriving DecidableEq, Repr

/-- String value of a conclusion as it appears in log lines (the enum values
are the strings "success" and "failure"). -/
def conclusionString : CheckConclusion → String
  | CheckConclusion.Success => "success"
  | CheckConclusion.Failure => "failure"

/-- Abstract handle for a parsed GraphQL schema object (built by the graphql
library, an external collaborator). -/
abbrev Schema := String

/-- Abstract handle for parsed introspection JSON data. -/
abbrev IntrospectionData := String

/-- Abstract handle for a resolved rule object (`Rule` from the core package). -/
abbrev Rule := String

/-- Abstract handle for one detected change emitted by the diff engine. -/
abbrev Change := String

/-- Abstract handle for a loaded usage-check function. -/
abbrev CheckUsage := String

/-- A named source text, mirroring `new Source(body, name)` from graphql. -/
structure Source where
  body : String
  name : String
deriving DecidableEq, Repr

/-- A label carried by a pull request. -/
structure PRLabel where
  name : String
deriving DecidableEq, Repr

/-- The `base` object of a pull request, carrying its target branch ref. -/
structure PRBase where
  ref : String
deriving DecidableEq, Repr

/-- Pull-request context returned by `getAssociatedPullRequest`. -/
structure PullRequest where
  state : String
  number : Nat
  base : Option PRBase
  labels : Option (List PRLabel)
deriving DecidableEq, Repr

/-- Optional diff configuration built around a loaded usage-check hook. -/
structure Config where
  checkUsage : CheckUsage
deriving DecidableEq, Repr

/-- The pair of schema objects passed to the diff engine. -/
structure Schemas where
  old : Schema
  new : Schema
deriving DecidableEq, Repr

/-- The pair of named sources passed to the diff engine. -/
structure Sources where
  old : Source
  new : Source
deriving DecidableEq, Repr

/-- The argument record of one `diff(...)` invocation (lines 151-157). -/
structure DiffArgs where
  path : String
  schemas : Schemas
  sources : Sources
  rules : List Rule
  config : Option Config
deriving DecidableEq, Repr

/-- The diff engine result `{ conclusion, changes }`. -/
structure DiffResult where
  conclusion : CheckConclusion
  changes : Option (List Change)
deriving DecidableEq, Repr

/-- The argument record of one `loadFile(...)` invocation; absent JS object
keys and `undefined` values are both `none`. -/
structure LoadArgs where
  ref : String
  path : Option String
  workspace : Option String
deriving DecidableEq, Repr

/-- One observable step of a run: a log line (`core.info` / `core.error`),
an output (`core.setOutput`), a failure signal (`core.setFailed`), or an
invocation of an external collaborator performing I/O. -/
inductive Event where
  | info (msg : String)
  | error (msg : String)
  | setOutput (key : String) (value : String)
  | setFailed (msg : String)
  | load (args : LoadArgs)
  | diffCall (args : DiffArgs)
deriving DecidableEq, Repr

/-- The outcome of a run: the ordered events it produced, and the exception
it propagated (`none` when the promise resolved normally). -/
structure RunResult where
  events : List Event
  thrown : Option String
deriving DecidableEq, Repr

/-- The raw action inputs read through `core.getInput`; an absent input is
the empty string, exactly as `@actions/core` reports it. -/
structure Inputs where
  githubToken : String
  name : String
  schema : String
  experimentalMerge : String
  failOnBreaking : String
  approveLabel : String
  rules : String
  getUsage : String
deriving DecidableEq, Repr

/-- The ambient state of one run: process environment values, action inputs,
the awaited pull-request association, and the external collaborators that
`run` invokes, each modelled as an oracle function (fallible ones return
`Except`, where `Except.error` is a thrown JS exception). -/
structure Env where
  githubSha : String
  commitSha : String
  githubWorkspace : Option String
  inputs : Inputs
  pullRequest : Option PullRequest
  resolveRule : String → Option Rule
  requireHook : String → Except String (Option CheckUsage)
  loadFile : LoadArgs → Except String String
  jsonParse : String → Except String IntrospectionData
  buildClientSchema : IntrospectionData → Except String Schema
  printSchema : Schema → String
  produceSchema : Source → Except String Schema
  createSummary : List Change → Nat → Bool → String
  diff : DiffArgs → Except String DiffResult

/-- Model of JavaScript `String.prototype.split` with a single-character
separator, on the character list of the string: every occurrence of the
separator starts a new segment, and the result is never empty. -/
def jsSplitList (sep : Char) : List Char → List (List Char)
  | [] => [[]]
  | c :: cs =>
    if c = sep then [] :: jsSplitList sep cs
    else
      match jsSplitList sep cs with
      | [] => [[c]]
      | l :: ls => (c :: l) :: ls

/-- JavaScript split of a string on a single-character separator. -/
def jsSplit (s : String) (sep : Char) : List String :=
  (jsSplitList sep s.toList).map (fun cs => String.mk cs)

/-- JavaScript falsiness of an optional string: `undefined` and the empty
string are falsy, every other string is truthy. -/
def jsStrFalsy : Option String → Bool
  | none => true
  | some s => s == ""

/-- Modelled from the spec: `castToBoolean` lives in `src/utils.ts`, which is
not included in the sources.  The spec describes `experimental_merge` as a
boolean defaulting to true and `fail-on-breaking` as a boolean defaulting to
false, so an absent or unrecognised input yields the default and the literals
"true" / "false" select the corresponding boolean. -/
def castToBoolean (value : String) (defaultValue : Bool) : Bool :=
  if value = "true" then true
  else if value = "false" then false
  else defaultValue

/-- Model of JavaScript `String.prototype.toLowerCase` for the ASCII range,
lowercasing each character. -/
def jsToLower (s : String) : String :=
  String.mk (s.toList.map Char.toLower)

/-- Model of JavaScript `String.prototype.trim`: strip leading and trailing
whitespace characters. -/
def jsTrim (s : String) : String :=
  String.mk
    (((s.toList.dropWhile (fun c => c ≤ ' ')).reverse.dropWhile (fun c => c ≤ ' ')).reverse)

/-- Modelled from the spec: `getInputAsArray` lives in `src/utils.ts`, which
is not included in the sources.  The spec describes `rules` as a
newline-separated list, and the test fixtures show surrounding blank lines
and indentation being ignored, so the raw input is split on newlines, each
entry trimmed, and empty entries dropped. -/
def getInputAsArray (raw : String) : List String :=
  ((jsSplit raw '\n').map jsTrim).filter (fun s => s ≠ "")

/-- Index of the last occurrence of a character in a character list. -/
def lastIdxOf (c : Char) : List Char → Option Nat
  | [] => none
  | x :: xs =>
    match lastIdxOf c xs with
    | some i => some (i + 1)
    | none => if x = c then some 0 else none

/-- Model of Node `path.extname`: the suffix of the last path segment from
its last dot; empty when the segment has no dot, when its only dot is the
leading character (dotfiles), or for the special segment "..". -/
def extname (p : String) : String :=
  let base := (jsSplitList '/' p.toList).getLastD []
  if base = ['.', '.'] then ""
  else
    match lastIdxOf '.' base with
    | none => ""
    | some 0 => ""
    | some i => String.mk (base.drop i)

/-- Model of the JavaScript expression `n || 0` on a number that is already
a natural count. -/
def jsOrZero (n : Nat) : Nat := if n = 0 then 0 else n

/-- The apostrophe character, kept out of string literals. -/
def apostrophe : String := String.singleton (Char.ofNat 39)

/-- The rules-validation failure message of line 76. -/
def msgRulesNotRecognised : String := "Some rules weren" ++ apostrophe ++ "t recognised"

/-- The generic schema-problem failure message of line 184. -/
def msgSchemaProblem : String := "Something is wrong with your schema"

/-- The missing-workspace failure message of line 30. -/
def msgWorkspaceMissing : String :=
  "Failed to resolve workspace directory. GITHUB_WORKSPACE is missing"

/-- The JS TypeError raised by `schemaPath.toLowerCase()` when the pointer
had no path segment, so `schemaPath` is `undefined` (line 124). -/
def msgTypeErrorUndefinedPath : String :=
  "TypeError: Cannot read properties of undefined (reading toLowerCase)"

/-- Line 91: `let [schemaRef, schemaPath] = schemaPointer.split(':')` —
the ref is element 0 of the split (always present) and the path is element 1
(`undefined` when the pointer has no colon). -/
def splitPointer (p : String) : String × Option String :=
  let parts := jsSplit p ':'
  (parts.headD "", parts.get? 1)

/-- Lines 165-167: `pullRequest?.labels?.some(label => label.name ===
approveLabel)`, with the undefined result of the optional chain coerced to
false at its boolean use site. -/
def hasApprovedBreakingChangeLabel (pullRequest : Option PullRequest) (approveLabel : String) : Bool :=
  match pullRequest with
  | none => false
  | some pr =>
    match pr.labels with
    | none => false
    | some ls => ls.any (fun label => label.name == approveLabel)

/-- Lines 169-176: force Success when failOnBreaking is disabled or the
approval label is present and the raw conclusion is Failure; returns the
final conclusion together with the notice emitted exactly when the override
fires. -/
def overrideStep (failOnBreaking : Bool) (hasLabel : Bool) (conclusion : CheckConclusion) :
    CheckConclusion × List Event :=
  if (failOnBreaking == false || hasLabel) && conclusion == CheckConclusion.Failure then
    (CheckConclusion.Success, [Event.info "FailOnBreaking disabled. Forcing SUCCESS"])
  else (conclusion, [])

/-- The refs, workspace and log lines produced by the merge-mode block. -/
structure ResolvedTargets where
  ref : String
  workspace : Option String
  schemaRef : String
  events : List Event
deriving DecidableEq, Repr

/-- Lines 93-104: when merge mode is on and the associated pull request is
open, the head ref becomes the pull-request merge ref, the workspace is
cleared, and, when the PR base ref is known (truthy), the schema (base) ref
becomes the PR base ref; otherwise everything is left unchanged. -/
def resolveTargets (useMerge : Bool) (pullRequest : Option PullRequest)
    (ref : String) (workspace : Option String) (schemaRef : String) : ResolvedTargets :=
  match pullRequest with
  | some pr =>
    if useMerge && pr.state == "open" then
      let newRef := "refs/pull/" ++ toString pr.number ++ "/merge"
      let ev1 := [Event.info ("EXPERIMENTAL - Using Pull Request " ++ newRef)]
      match pr.base with
      | some b =>
        if b.ref ≠ "" then
          { ref := newRef, workspace := none, schemaRef := b.ref,
            events := ev1 ++ [Event.info ("EXPERIMENTAL - Using " ++ b.ref ++ " as base schema ref")] }
        else { ref := newRef, workspace := none, schemaRef := schemaRef, events := ev1 }
      | none => { ref := newRef, workspace := none, schemaRef := schemaRef, events := ev1 }
    else { ref := ref, workspace := workspace, schemaRef := schemaRef, events := [] }
  | none => { ref := ref, workspace := workspace, schemaRef := schemaRef, events := [] }

/-- Prefix a run result with earlier events. -/
def withEvents (pre : List Event) (r : RunResult) : RunResult :=
  { events := pre ++ r.events, thrown := r.thrown }

/-- Lines 149-188: invoke the diff engine, report the change count, apply
the conclusion-override policy, and report the final conclusion and
summary.  A diff-engine rejection propagates. -/
def runDiffStage (env : Env) (failOnBreaking : Bool) (approveLabel : String)
    (pullRequest : Option PullRequest) (rules : List Rule) (config : Option Config)
    (schemaPath : String) (schemas : Schemas) (sources : Sources) : RunResult :=
  let dArgs : DiffArgs :=
    { path := schemaPath, schemas := schemas, sources := sources, rules := rules, config := config }
  match env.diff dArgs with
  | Except.error e =>
    { events := [Event.info "Start comparing schemas", Event.diffCall dArgs], thrown := some e }
  | Except.ok action =>
    let changes := action.changes.getD []
    let changesCount := jsOrZero changes.length
    let hasLabel := hasApprovedBreakingChangeLabel pullRequest approveLabel
    let step := overrideStep failOnBreaking hasLabel action.conclusion
    let conclusion := step.1
    let summary := env.createSummary changes 100 false
    let head :=
      [Event.info "Start comparing schemas", Event.diffCall dArgs,
       Event.setOutput "changes" (toString changesCount),
       Event.info ("Changes: " ++ toString changesCount)]
      ++ step.2
      ++ [Event.info ("Conclusion: " ++ conclusionString conclusion)]
    if conclusion = CheckConclusion.Failure then
      { events := head ++ [Event.error summary, Event.setFailed msgSchemaProblem], thrown := none }
    else
      { events := head ++ [Event.info summary], thrown := none }

/-- Lines 120-147: build the two schema objects and named sources, either by
parsing introspection JSON and re-printing it (".json" extension of the
lowercased path) or directly from the loaded text; a pointer without a path
segment makes `schemaPath.toLowerCase()` throw; parse and build errors
propagate. -/
def runBuildStage (env : Env) (failOnBreaking : Bool) (approveLabel : String)
    (pullRequest : Option PullRequest) (rules : List Rule) (config : Option Config)
    (schemaRef : String) (schemaPath : Option String) (oldFile newFile : String) : RunResult :=
  match schemaPath with
  | none => { events := [], thrown := some msgTypeErrorUndefinedPath }
  | some sp =>
    if extname (jsToLower sp) = ".json" then
      match env.jsonParse oldFile with
      | Except.error e => { events := [], thrown := some e }
      | Except.ok oldIntro =>
        match env.buildClientSchema oldIntro with
        | Except.error e => { events := [], thrown := some e }
        | Except.ok oldSchema =>
          match env.jsonParse newFile with
          | Except.error e => { events := [], thrown := some e }
          | Except.ok newIntro =>
            match env.buildClientSchema newIntro with
            | Except.error e => { events := [], thrown := some e }
            | Except.ok newSchema =>
              let sources : Sources :=
                { old := { body := env.printSchema oldSchema, name := schemaRef ++ ":" ++ sp },
                  new := { body := env.printSchema newSchema, name := sp } }
              withEvents [Event.info "Built both schemas"]
                (runDiffStage env failOnBreaking approveLabel pullRequest rules config sp
                  { old := oldSchema, new := newSchema } sources)
    else
      let sources : Sources :=
        { old := { body := oldFile, name := schemaRef ++ ":" ++ sp },
          new := { body := newFile, name := sp } }
      match env.produceSchema sources.old with
      | Except.error e => { events := [], thrown := some e }
      | Except.ok oldSchema =>
        match env.produceSchema sources.new with
        | Except.error e => { events := [], thrown := some e }
        | Except.ok newSchema =>
          withEvents [Event.info "Built both schemas"]
            (runDiffStage env failOnBreaking approveLabel pullRequest rules config sp
              { old := oldSchema, new := newSchema } sources)

/-- Lines 106-118: issue both file loads (old side from the schema ref
without a workspace, new side from the head ref with the current workspace);
a rejection of either load propagates and aborts the run. -/
def runLoadStage (env : Env) (failOnBreaking : Bool) (approveLabel : String)
    (pullRequest : Option PullRequest) (rules : List Rule) (config : Option Config)
    (schemaRef : String) (schemaPath : Option String) (ref : String)
    (workspace : Option String) : RunResult :=
  let oldArgs : LoadArgs := { ref := schemaRef, path := schemaPath, workspace := none }
  let newArgs : LoadArgs := { ref := ref, path := schemaPath, workspace := workspace }
  withEvents [Event.load oldArgs, Event.load newArgs]
    (match env.loadFile oldArgs, env.loadFile newArgs with
     | Except.error e, _ => { events := [], thrown := some e }
     | Except.ok _, Except.error e => { events := [], thrown := some e }
     | Except.ok oldFile, Except.ok newFile =>
       withEvents [Event.info "Got both sources"]
         (runBuildStage env failOnBreaking approveLabel pullRequest rules config
           schemaRef schemaPath oldFile newFile))

/-- Lines 91-104: split the schema pointer and apply the merge-mode
substitution, then proceed to the file loads. -/
def runPointerStage (env : Env) (useMerge failOnBreaking : Bool) (approveLabel : String)
    (pullRequest : Option PullRequest) (rules : List Rule) (config : Option Config)
    (ref0 : String) (workspace0 : Option String) (schemaPointer : String) : RunResult :=
  let sp := splitPointer schemaPointer
  let rt := resolveTargets useMerge pullRequest ref0 workspace0 sp.1
  withEvents rt.events
    (runLoadStage env failOnBreaking approveLabel pullRequest rules config
      rt.schemaRef sp.2 rt.ref rt.workspace)

/-- Lines 79-89: when a usage hook is configured, load it with `require`; a
throwing load propagates (there is no catch), a falsy export leaves the
config absent, a usable export becomes the `checkUsage` config entry. -/
def runConfigStage (env : Env) (useMerge failOnBreaking : Bool) (approveLabel : String)
    (pullRequest : Option PullRequest) (rules : List Rule) (onUsage : String)
    (ref0 : String) (workspace0 : Option String) (schemaPointer : String) : RunResult :=
  if onUsage = "" then
    runPointerStage env useMerge failOnBreaking approveLabel pullRequest rules none
      ref0 workspace0 schemaPointer
  else
    match env.requireHook onUsage with
    | Except.error e => { events := [], thrown := some e }
    | Except.ok (some cu) =>
      runPointerStage env useMerge failOnBreaking approveLabel pullRequest rules
        (some { checkUsage := cu }) ref0 workspace0 schemaPointer
    | Except.ok none =>
      runPointerStage env useMerge failOnBreaking approveLabel pullRequest rules none
        ref0 workspace0 schemaPointer

/-- Lines 62-77: resolve every rule reference, log an error line for each
unresolved one, and fail the run when any reference stayed unresolved
(the resolved list is then shorter than the reference list). -/
def runRulesStage (env : Env) (useMerge failOnBreaking : Bool) (approveLabel : String)
    (pullRequest : Option PullRequest) (rulesList : List String) (onUsage : String)
    (ref0 : String) (workspace0 : Option String) (schemaPointer : String) : RunResult :=
  let resolved := rulesList.map env.resolveRule
  let errs := rulesList.filterMap (fun r =>
    if (env.resolveRule r).isNone then
      some (Event.error ("Rule " ++ r ++ " is invalid. Did you specify the correct path?"))
    else none)
  let rules := resolved.filterMap id
  withEvents errs
    (if rules.length ≠ rulesList.length then
      { events := [Event.setFailed msgRulesNotRecognised], thrown := none }
    else
      runConfigStage env useMerge failOnBreaking approveLabel pullRequest rules onUsage
        ref0 workspace0 schemaPointer)

/-- The opening log lines of every run (lines 15-22). -/
def startEvents (env : Env) : List Event :=
  [Event.info "GraphQL Inspector started",
   Event.info ("Ref: " ++ env.githubSha),
   Event.info ("Commit SHA: " ++ env.commitSha)]

/-- Lines 14-60 followed by the later stages: the full `run` function.
`core.getInput(..., { required: true })` throws when the input is absent;
the missing-workspace check fails the run; the explicit empty-pointer check
of lines 57-60 is kept even though the required read of line 49 already
threw for an empty pointer. -/
def run (env : Env) : RunResult :=
  let ev0 := startEvents env
  if env.inputs.githubToken = "" then
    { events := ev0, thrown := some "Input required and not supplied: github-token" }
  else
    let jobName := if env.inputs.name = "" then "GraphQL Inspector" else env.inputs.name
    if jsStrFalsy env.githubWorkspace then
      { events := ev0 ++ [Event.setFailed msgWorkspaceMissing], thrown := none }
    else
      let useMerge := castToBoolean env.inputs.experimentalMerge true
      let failOnBreaking := castToBoolean env.inputs.failOnBreaking false
      let approveLabel :=
        if env.inputs.approveLabel = "" then "approved-breaking-change" else env.inputs.approveLabel
      let rulesList := getInputAsArray env.inputs.rules
      let onUsage := env.inputs.getUsage
      let ev1 := ev0 ++ [Event.info ("Creating a job named \"" ++ jobName ++ "\"")]
      if env.inputs.schema = "" then
        { events := ev1, thrown := some "Input required and not supplied: schema" }
      else
        if env.inputs.schema = "" then
          { events := ev1 ++ [Event.error "No `schema` variable",
                              Event.setFailed "Failed to find `schema` variable"], thrown := none }
        else
          withEvents ev1
            (runRulesStage env useMerge failOnBreaking approveLabel env.pullRequest rulesList
              onUsage env.githubSha env.githubWorkspace env.inputs.schema)

/-- An open pull request with base branch "main" and the default approval
label, used to evaluate the model on concrete inputs. -/
def prOpen : PullRequest :=
  { state := "open", number := 7, base := some { ref := "main" },
    labels := some [{ name := "approved-breaking-change" }] }

/-- A concrete environment for evaluating the model: a plain SDL pointer, no
pull request, no rules, no usage hook, and a diff engine reporting two
changes with a Failure conclusion. -/
def envA : Env :=
  { githubSha := "sha123",
    commitSha := "sha123",
    githubWorkspace := some "/workspace",
    inputs :=
      { githubToken := "tok", name := "", schema := "master:schema.graphql",
        experimentalMerge := "false", failOnBreaking := "true", approveLabel := "",
        rules := "", getUsage := "" },
    pullRequest := none,
    resolveRule := fun r =>
      if r = "suppressRemovalOfDeprecatedField" then some "suppressRemovalOfDeprecatedField"
      else none,
    requireHook := fun _ => Except.ok none,
    loadFile := fun args => Except.ok ("type Query at " ++ args.ref),
    jsonParse := fun s => Except.ok s,
    buildClientSchema := fun i => Except.ok ("client:" ++ i),
    printSchema := fun s => "printed:" ++ s,
    produceSchema := fun s => Except.ok ("schema:" ++ s.body),
    createSummary := fun changes limit verbose => "summary of " ++ toString changes.length,
    diff := fun _ =>
      Except.ok { conclusion := CheckConclusion.Failure, changes := some ["chg1", "chg2"] } }

/-- Recogniser for diff-engine invocation events. -/
def isDiffCall : Event → Bool
  | Event.diffCall _ => true
  | _ => false

/-- The environment `envA` with a schema pointer that has no path segment. -/
def envC4 : Env := { envA with inputs := { envA.inputs with schema := "master" } }

/-- The environment `envA` with a configured usage hook whose load throws. -/
def envC5 : Env :=
  { envA with
    inputs := { envA.inputs with getUsage := "hook.js" },
    requireHook := fun _ => Except.error "Cannot find module hook.js" }

/-- The environment `envA` with a rule reference that does not resolve. -/
def envC2 : Env := { envA with inputs := { envA.inputs with rules := "badRule" } }

/-- Replace the label set of an optional pull request, leaving its state,
number and base untouched. -/
def setPRLabels (pr : Option PullRequest) (ls : Option (List PRLabel)) : Option PullRequest :=
  pr.map (fun p => { p with labels := ls })

/-! Helper lemmas shared by the verification theorems. -/

theorem mem_withEvents (e : Event) (pre : List Event) (r : RunResult) :
    e ∈ (withEvents pre r).events ↔ e ∈ pre ∨ e ∈ r.events := by
  simp [withEvents]

theorem withEvents_nil (r : RunResult) : withEvents [] r = r := by
  simp [withEvents]

theorem overrideStep_success (f hl : Bool) :
    overrideStep f hl CheckConclusion.Success = (CheckConclusion.Success, []) := by
  cases f <;> cases hl <;> rfl

theorem overrideStep_no_setFailed (f hl : Bool) (c : CheckConclusion) (m : String) :
    Event.setFailed m ∉ (overrideStep f hl c).2 := by
  unfold overrideStep
  split <;> simp

theorem overrideStep_no_setOutput (f hl : Bool) (c : CheckConclusion) (k v : String) :
    Event.setOutput k v ∉ (overrideStep f hl c).2 := by
  unfold overrideStep
  split <;> simp

theorem jsOrZero_eq (n : Nat) : jsOrZero n = n := by
  unfold jsOrZero
  split <;> omega

theorem jsSplitList_of_not_mem {sep : Char} {l : List Char} (h : sep ∉ l) :
    jsSplitList sep l = [l] := by
  induction l with
  | nil => rfl
  | cons c cs ih =>
    have hc : ¬ c = sep := by
      intro e
      exact h (by rw [e]; exact List.mem_cons_self _ _)
    have hcs : sep ∉ cs := fun hm => h (List.mem_cons_of_mem _ hm)
    unfold jsSplitList
    rw [if_neg hc, ih hcs]

theorem jsSplitList_append {sep : Char} {xs : List Char} (ys : List Char) (h : sep ∉ xs) :
    jsSplitList sep (xs ++ sep :: ys) = xs :: jsSplitList sep ys := by
  induction xs with
  | nil => simp [jsSplitList]
  | cons c cs ih =>
    have hc : ¬ c = sep := by
      intro e
      exact h (by rw [e]; exact List.mem_cons_self _ _)
    have hcs : sep ∉ cs := fun hm => h (List.mem_cons_of_mem _ hm)
    rw [List.cons_append]
    conv_lhs => unfold jsSplitList
    rw [if_neg hc, ih hcs]

/-! # Claim C6 -/

/-- C6 counterexample: the pointer "a:b:c" resolves to path "b", not to the
entire remainder "b:c" after the first colon — `split(':')` cuts at every
colon and the destructuring keeps only the second segment. -/
theorem splitPointer_multi_colon_counterexample :
    splitPointer "a:b:c" = ("a", some "b") ∧ ¬ splitPointer "a:b:c" = ("a", some "b:c") := by
  constructor <;> decide

/-- C6 amended: for every pointer, the resolved ref is the text before the
first colon, and the resolved path is the segment strictly between the first
and the second colon (everything after the first colon only when no second
colon exists); text after a second colon is dropped. -/
theorem splitPointer_second_segment (x y z : List Char)
    (hx : ':' ∉ x) (hy : ':' ∉ y) :
    splitPointer (String.mk (x ++ ':' :: y)) = (String.mk x, some (String.mk y)) ∧
    splitPointer (String.mk (x ++ ':' :: (y ++ ':' :: z))) = (String.mk x, some (String.mk y)) := by
  constructor
  · unfold splitPointer jsSplit
    rw [show (String.mk (x ++ ':' :: y)).toList = x ++ ':' :: y from rfl,
      jsSplitList_append y hx, jsSplitList_of_not_mem hy]
    rfl
  · unfold splitPointer jsSplit
    rw [show (String.mk (x ++ ':' :: (y ++ ':' :: z))).toList = x ++ ':' :: (y ++ ':' :: z)
        from rfl,
      jsSplitList_append (y ++ ':' :: z) hx, jsSplitList_append z hy]
    rfl

/-- C6 amended, witness: the concrete pointer "a:b:c". -/
theorem splitPointer_second_segment_witness :
    splitPointer (String.mk (['a'] ++ ':' :: (['b'] ++ ':' :: ['c']))) =
      (String.mk ['a'], some (String.mk ['b'])) :=
  (splitPointer_second_segment ['a'] ['b'] ['c'] (by decide) (by decide)).2

/-! # Claim C1 -/

/-- C1: the conclusion override is a one-directional downgrade.  Starting
from a raw `Failure`, the final conclusion is `Success` exactly when
fail-on-breaking is disabled or the pull request carries the approval label;
a raw `Success` always stays `Success`; and a run whose diff engine returned
`Success` is never marked failed with the schema-problem message. -/
theorem conclusion_override_policy (env : Env) (failOnBreaking : Bool) (approveLabel : String)
    (pullRequest : Option PullRequest) (rules : List Rule) (config : Option Config)
    (schemaPath : String) (schemas : Schemas) (sources : Sources) (action : DiffResult)
    (h : env.diff { path := schemaPath, schemas := schemas, sources := sources,
                    rules := rules, config := config } = Except.ok action) :
    ((overrideStep failOnBreaking (hasApprovedBreakingChangeLabel pullRequest approveLabel)
        CheckConclusion.Failure).1 = CheckConclusion.Success ↔
      (failOnBreaking = false ∨ hasApprovedBreakingChangeLabel pullRequest approveLabel = true)) ∧
    (overrideStep failOnBreaking (hasApprovedBreakingChangeLabel pullRequest approveLabel)
        CheckConclusion.Success).1 = CheckConclusion.Success ∧
    (action.conclusion = CheckConclusion.Success →
      Event.setFailed msgSchemaProblem ∉
        (runDiffStage env failOnBreaking approveLabel pullRequest rules config
          schemaPath schemas sources).events) := by
  refine ⟨?_, ?_, ?_⟩
  · cases failOnBreaking <;>
      cases hhl : hasApprovedBreakingChangeLabel pullRequest approveLabel <;>
        simp [overrideStep]
  · rw [overrideStep_success]
  · intro hs
    unfold runDiffStage
    dsimp only
    rw [h]
    dsimp only
    rw [hs, overrideStep_success]
    simp

/-- C1 witness: with fail-on-breaking enabled and no pull request, a raw
`Failure` is not downgraded, a raw `Success` stays `Success`, and the
concrete run with a `Success` diff conclusion is not failed. -/
theorem conclusion_override_policy_witness :
    ¬ (overrideStep true (hasApprovedBreakingChangeLabel none "x")
        CheckConclusion.Failure).1 = CheckConclusion.Success ∧
    (overrideStep true (hasApprovedBreakingChangeLabel none "x")
        CheckConclusion.Success).1 = CheckConclusion.Success ∧
    Event.setFailed msgSchemaProblem ∉
      (runDiffStage
        { envA with diff := fun _ =>
            Except.ok { conclusion := CheckConclusion.Success, changes := some ["chg1"] } }
        true "x" none [] none "p" { old := "o", new := "n" }
        { old := { body := "b1", name := "n1" }, new := { body := "b2", name := "n2" } }).events := by
  have h := conclusion_override_policy
    { envA with diff := fun _ =>
        Except.ok { conclusion := CheckConclusion.Success, changes := some ["chg1"] } }
    true "x" none [] none "p" { old := "o", new := "n" }
    { old := { body := "b1", name := "n1" }, new := { body := "b2", name := "n2" } }
    { conclusion := CheckConclusion.Success, changes := some ["chg1"] } rfl
  exact ⟨by rw [h.1]; decide, h.2.1, h.2.2 rfl⟩

/-! # Claim C3 -/

/-- C3: with merge mode on and an open pull request, the head ref becomes
the pull-request merge ref `refs/pull/N/merge`, the workspace is cleared,
and when the PR base ref is known the schema (base) ref becomes that base
ref; with merge mode off, a non-open pull request, or no pull request, the
originally configured refs and workspace are used unchanged. -/
theorem merge_ref_resolution (useMerge : Bool) (pr : PullRequest) (ref0 : String)
    (ws0 : Option String) (schemaRef0 : String) :
    (useMerge = true → pr.state = "open" →
      (resolveTargets useMerge (some pr) ref0 ws0 schemaRef0).ref =
          "refs/pull/" ++ toString pr.number ++ "/merge" ∧
        (resolveTargets useMerge (some pr) ref0 ws0 schemaRef0).workspace = none ∧
        (∀ b : PRBase, pr.base = some b → b.ref ≠ "" →
          (resolveTargets useMerge (some pr) ref0 ws0 schemaRef0).schemaRef = b.ref)) ∧
    (useMerge = false →
      resolveTargets useMerge (some pr) ref0 ws0 schemaRef0 =
        { ref := ref0, workspace := ws0, schemaRef := schemaRef0, events := [] }) ∧
    (pr.state ≠ "open" →
      resolveTargets useMerge (some pr) ref0 ws0 schemaRef0 =
        { ref := ref0, workspace := ws0, schemaRef := schemaRef0, events := [] }) ∧
    resolveTargets useMerge none ref0 ws0 schemaRef0 =
      { ref := ref0, workspace := ws0, schemaRef := schemaRef0, events := [] } := by
  refine ⟨?_, ?_, ?_, rfl⟩
  · intro hm hs
    subst hm
    cases hb : pr.base with
    | none => simp [resolveTargets, hs, hb]
    | some b =>
      by_cases hbr : b.ref = ""
      · simp [resolveTargets, hs, hb, hbr]
      · refine ⟨?_, ?_, ?_⟩ <;> simp [resolveTargets, hs, hb, hbr]
  · intro hm
    subst hm
    simp [resolveTargets]
  · intro hs
    have hs' : (pr.state == "open") = false := by simp [hs]
    simp [resolveTargets, hs']

/-- C3 witness: the concrete open pull request number 7 with base "main". -/
theorem merge_ref_resolution_witness :
    (resolveTargets true (some prOpen) "sha123" (some "/workspace") "master").ref =
        "refs/pull/7/merge" ∧
    (resolveTargets true (some prOpen) "sha123" (some "/workspace") "master").workspace = none ∧
    (resolveTargets true (some prOpen) "sha123" (some "/workspace") "master").schemaRef = "main" ∧
    resolveTargets false (some prOpen) "sha123" (some "/workspace") "master" =
      { ref := "sha123", workspace := some "/workspace", schemaRef := "master", events := [] } := by
  have h := merge_ref_resolution true prOpen "sha123" (some "/workspace") "master"
  have h2 := merge_ref_resolution false prOpen "sha123" (some "/workspace") "master"
  exact ⟨(h.1 rfl rfl).1, (h.1 rfl rfl).2.1,
    (h.1 rfl rfl).2.2 { ref := "main" } rfl (by decide), h2.2.1 rfl⟩

theorem diffCall_mem_runDiffStage (env : Env) (fob : Bool) (al : String)
    (pr : Option PullRequest) (rules : List Rule) (config : Option Config)
    (sp : String) (schemas : Schemas) (sources : Sources) :
    Event.diffCall { path := sp, schemas := schemas, sources := sources,
                     rules := rules, config := config } ∈
      (runDiffStage env fob al pr rules config sp schemas sources).events := by
  unfold runDiffStage
  dsimp only
  cases hd : env.diff { path := sp, schemas := schemas, sources := sources, rules := rules, config := config } with
  | error e => simp
  | ok a =>
    dsimp only
    split <;> simp

/-! # Claim C8 -/

/-- C8: the numeric `changes` output reported to the CI platform equals the
number of detected changes, and an absent change list is treated as empty so
the reported count is zero. -/
theorem changes_output_count (env : Env) (failOnBreaking : Bool) (approveLabel : String)
    (pullRequest : Option PullRequest) (rules : List Rule) (config : Option Config)
    (schemaPath : String) (schemas : Schemas) (sources : Sources) (action : DiffResult)
    (h : env.diff { path := schemaPath, schemas := schemas, sources := sources,
                    rules := rules, config := config } = Except.ok action) :
    Event.setOutput "changes" (toString (action.changes.getD []).length) ∈
        (runDiffStage env failOnBreaking approveLabel pullRequest rules config
          schemaPath schemas sources).events ∧
    (action.changes = none →
      Event.setOutput "changes" "0" ∈
        (runDiffStage env failOnBreaking approveLabel pullRequest rules config
          schemaPath schemas sources).events) := by
  have key : ∀ v, v = toString (jsOrZero (action.changes.getD []).length) →
      Event.setOutput "changes" v ∈
        (runDiffStage env failOnBreaking approveLabel pullRequest rules config
          schemaPath schemas sources).events := by
    intro v hv
    unfold runDiffStage
    dsimp only
    rw [h]
    dsimp only
    subst hv
    split <;> simp [List.mem_append]
  exact ⟨key _ (by rw [jsOrZero_eq]), fun hn => key "0" (by rw [hn]; rfl)⟩

/-- C8 witness: the concrete diff result with two changes yields the output
value "2". -/
theorem changes_output_count_witness :
    Event.setOutput "changes" "2" ∈
      (runDiffStage envA true "x" none [] none "p"
        { old := "o", new := "n" }
        { old := { body := "b1", name := "n1" },
          new := { body := "b2", name := "n2" } }).events := by
  have h := changes_output_count envA true "x" none [] none "p"
    { old := "o", new := "n" }
    { old := { body := "b1", name := "n1" }, new := { body := "b2", name := "n2" } }
    { conclusion := CheckConclusion.Failure, changes := some ["chg1", "chg2"] } rfl
  exact h.1

/-! # Claim C9 -/

/-- C9: on a final `Failure` conclusion the generated summary is emitted as
an error-level message and the run is marked failed with the fixed
schema-problem message; on a final `Success` the summary is emitted as an
informational message and no failure is signaled by this stage. -/
theorem conclusion_reporting (env : Env) (failOnBreaking : Bool) (approveLabel : String)
    (pullRequest : Option PullRequest) (rules : List Rule) (config : Option Config)
    (schemaPath : String) (schemas : Schemas) (sources : Sources) (action : DiffResult)
    (h : env.diff { path := schemaPath, schemas := schemas, sources := sources,
                    rules := rules, config := config } = Except.ok action) :
    ((overrideStep failOnBreaking (hasApprovedBreakingChangeLabel pullRequest approveLabel)
        action.conclusion).1 = CheckConclusion.Failure →
      Event.error (env.createSummary (action.changes.getD []) 100 false) ∈
          (runDiffStage env failOnBreaking approveLabel pullRequest rules config
            schemaPath schemas sources).events ∧
        Event.setFailed msgSchemaProblem ∈
          (runDiffStage env failOnBreaking approveLabel pullRequest rules config
            schemaPath schemas sources).events) ∧
    ((overrideStep failOnBreaking (hasApprovedBreakingChangeLabel pullRequest approveLabel)
        action.conclusion).1 = CheckConclusion.Success →
      Event.info (env.createSummary (action.changes.getD []) 100 false) ∈
          (runDiffStage env failOnBreaking approveLabel pullRequest rules config
            schemaPath schemas sources).events ∧
        ∀ m, Event.setFailed m ∉
          (runDiffStage env failOnBreaking approveLabel pullRequest rules config
            schemaPath schemas sources).events) := by
  constructor
  · intro hf
    unfold runDiffStage
    dsimp only
    rw [h]
    dsimp only
    rw [if_pos hf]
    constructor <;> simp [List.mem_append]
  · intro hs
    unfold runDiffStage
    dsimp only
    rw [h]
    dsimp only
    rw [if_neg (by simp [hs])]
    refine ⟨by simp [List.mem_append], ?_⟩
    intro m
    simp [List.mem_append, overrideStep_no_setFailed]

/-- C9 witness: the concrete Failure run emits the summary as an error and
fails with the schema-problem message. -/
theorem conclusion_reporting_witness :
    Event.error "summary of 2" ∈
        (runDiffStage envA true "x" none [] none "p"
          { old := "o", new := "n" }
          { old := { body := "b1", name := "n1" },
            new := { body := "b2", name := "n2" } }).events ∧
    Event.setFailed msgSchemaProblem ∈
      (runDiffStage envA true "x" none [] none "p"
        { old := "o", new := "n" }
        { old := { body := "b1", name := "n1" },
          new := { body := "b2", name := "n2" } }).events := by
  have h := conclusion_reporting envA true "x" none [] none "p"
    { old := "o", new := "n" }
    { old := { body := "b1", name := "n1" }, new := { body := "b2", name := "n2" } }
    { conclusion := CheckConclusion.Failure, changes := some ["chg1", "chg2"] } rfl
  exact h.1 rfl

/-! # Claim C7 -/

/-- C7: when the lowercased path has extension ".json", each loaded blob is
parsed as introspection JSON, materialized as a schema, and re-serialized to
canonical text as the comparison source; otherwise each blob is the source
text directly; in both cases the old side's source is named "ref:path" and
the new side's source is named by the bare path, and the diff engine is
invoked with exactly those schemas and sources. -/
theorem schema_build_branches (env : Env) (failOnBreaking : Bool) (approveLabel : String)
    (pullRequest : Option PullRequest) (rules : List Rule) (config : Option Config)
    (schemaRef : String) (sp : String) (oldFile newFile : String)
    (iOld iNew : IntrospectionData) (sOld sNew tOld tNew : Schema)
    (hpo : env.jsonParse oldFile = Except.ok iOld)
    (hbo : env.buildClientSchema iOld = Except.ok sOld)
    (hpn : env.jsonParse newFile = Except.ok iNew)
    (hbn : env.buildClientSchema iNew = Except.ok sNew)
    (hqo : env.produceSchema { body := oldFile, name := schemaRef ++ ":" ++ sp } =
      Except.ok tOld)
    (hqn : env.produceSchema { body := newFile, name := sp } = Except.ok tNew) :
    Event.diffCall
        (if extname (jsToLower sp) = ".json" then
          { path := sp,
            schemas := { old := sOld, new := sNew },
            sources := { old := { body := env.printSchema sOld, name := schemaRef ++ ":" ++ sp },
                         new := { body := env.printSchema sNew, name := sp } },
            rules := rules, config := config }
        else
          { path := sp,
            schemas := { old := tOld, new := tNew },
            sources := { old := { body := oldFile, name := schemaRef ++ ":" ++ sp },
                         new := { body := newFile, name := sp } },
            rules := rules, config := config }) ∈
      (runBuildStage env failOnBreaking approveLabel pullRequest rules config schemaRef
        (some sp) oldFile newFile).events := by
  unfold runBuildStage
  dsimp only
  by_cases hext : extname (jsToLower sp) = ".json"
  · simp only [if_pos hext]
    rw [hpo]
    dsimp only
    rw [hbo]
    dsimp only
    rw [hpn]
    dsimp only
    rw [hbn]
    dsimp only
    rw [mem_withEvents]
    exact Or.inr (diffCall_mem_runDiffStage env failOnBreaking approveLabel pullRequest
      rules config sp _ _)
  · simp only [if_neg hext]
    rw [hqo]
    dsimp only
    rw [hqn]
    dsimp only
    rw [mem_withEvents]
    exact Or.inr (diffCall_mem_runDiffStage env failOnBreaking approveLabel pullRequest
      rules config sp _ _)

/-- C7 witness: a ".graphql" path takes the direct-text branch with the old
source named "master:schema.graphql" and the new source named by the path. -/
theorem schema_build_branches_witness :
    Event.diffCall
        { path := "schema.graphql",
          schemas := { old := "schema:oldtext", new := "schema:newtext" },
          sources := { old := { body := "oldtext", name := "master:schema.graphql" },
                       new := { body := "newtext", name := "schema.graphql" } },
          rules := [], config := none } ∈
      (runBuildStage envA true "x" none [] none "master" (some "schema.graphql")
        "oldtext" "newtext").events := by
  have h := schema_build_branches envA true "x" none [] none "master" "schema.graphql"
    "oldtext" "newtext" "oldtext" "newtext" "client:oldtext" "client:newtext"
    "schema:oldtext" "schema:newtext" rfl rfl rfl rfl rfl rfl
  rw [if_neg (by decide)] at h
  exact h

theorem run_reaches (env : Env)
    (hT : ¬ env.inputs.githubToken = "")
    (hW : jsStrFalsy env.githubWorkspace = false)
    (hS : ¬ env.inputs.schema = "") :
    run env =
      withEvents
        (startEvents env ++
          [Event.info ("Creating a job named \"" ++
            (if env.inputs.name = "" then "GraphQL Inspector" else env.inputs.name) ++ "\"")])
        (runRulesStage env (castToBoolean env.inputs.experimentalMerge true)
          (castToBoolean env.inputs.failOnBreaking false)
          (if env.inputs.approveLabel = "" then "approved-breaking-change"
            else env.inputs.approveLabel)
          env.pullRequest (getInputAsArray env.inputs.rules) env.inputs.getUsage
          env.githubSha env.githubWorkspace env.inputs.schema) := by
  unfold run
  simp [hT, hW, hS]

theorem resolved_eq (f : String → Option Rule) (l : List String) :
    (l.map f).filterMap id = l.filterMap f := by
  rw [List.filterMap_map]
  rfl

theorem length_filterMap_of_all (f : String → Option Rule) (l : List String)
    (h : ∀ r ∈ l, (f r).isSome) : (l.filterMap f).length = l.length := by
  induction l with
  | nil => rfl
  | cons a as ih =>
    have ha := h a (List.mem_cons_self _ _)
    cases hfa : f a with
    | none => rw [hfa] at ha; simp at ha
    | some b =>
      rw [List.filterMap_cons, hfa]
      simp only [List.length_cons]
      rw [ih (fun r hr => h r (List.mem_cons_of_mem _ hr))]

theorem length_filterMap_le (f : String → Option Rule) (l : List String) :
    (l.filterMap f).length ≤ l.length := by
  induction l with
  | nil => simp
  | cons a as ih =>
    rw [List.filterMap_cons]
    cases hfa : f a with
    | none => simp only [List.length_cons]; omega
    | some b => simp only [List.length_cons]; omega

theorem length_filterMap_lt (f : String → Option Rule) (l : List String)
    (h : ∃ r ∈ l, f r = none) : (l.filterMap f).length < l.length := by
  induction l with
  | nil => rcases h with ⟨r, hr, _⟩; cases hr
  | cons a as ih =>
    rw [List.filterMap_cons]
    cases hfa : f a with
    | none =>
      have := length_filterMap_le f as
      simp only [List.length_cons]
      omega
    | some b =>
      rcases h with ⟨r, hr, hrn⟩
      rcases List.mem_cons.mp hr with heq | hr'
      · rw [heq, hfa] at hrn; cases hrn
      · have := ih ⟨r, hr', hrn⟩
        simp only [List.length_cons]
        omega

theorem rule_errs_nil (env : Env) (rl : List String)
    (h : ∀ r ∈ rl, (env.resolveRule r).isSome) :
    rl.filterMap (fun r =>
      if (env.resolveRule r).isNone then
        some (Event.error ("Rule " ++ r ++ " is invalid. Did you specify the correct path?"))
      else none) = [] := by
  rw [List.filterMap_eq_nil_iff]
  intro a ha
  cases hfa : env.resolveRule a with
  | none =>
    have := h a ha
    rw [hfa] at this
    simp at this
  | some b => simp [hfa]

theorem runRulesStage_pass (env : Env) (um fob : Bool) (al : String) (pr : Option PullRequest)
    (rl : List String) (onUsage ref0 : String) (ws0 : Option String) (sp : String)
    (h : ∀ r ∈ rl, (env.resolveRule r).isSome) :
    runRulesStage env um fob al pr rl onUsage ref0 ws0 sp =
      runConfigStage env um fob al pr ((rl.map env.resolveRule).filterMap id) onUsage
        ref0 ws0 sp := by
  have hlen : ((rl.map env.resolveRule).filterMap id).length = rl.length := by
    rw [resolved_eq]
    exact length_filterMap_of_all _ _ h
  unfold runRulesStage
  dsimp only
  rw [rule_errs_nil env rl h, if_neg (fun hne => hne hlen), withEvents_nil]

theorem resolveTargets_no_setFailed (um : Bool) (pr : Option PullRequest) (ref0 : String)
    (ws0 : Option String) (sr0 : String) (m : String) :
    Event.setFailed m ∉ (resolveTargets um pr ref0 ws0 sr0).events := by
  unfold resolveTargets
  cases pr with
  | none => simp
  | some p =>
    dsimp only
    split <;> (try split) <;> (try split) <;> simp

theorem runDiffStage_setFailed (env : Env) (fob : Bool) (al : String) (pr : Option PullRequest)
    (rules : List Rule) (config : Option Config) (sp : String) (schemas : Schemas)
    (sources : Sources) (m : String)
    (h : Event.setFailed m ∈
      (runDiffStage env fob al pr rules config sp schemas sources).events) :
    m = msgSchemaProblem := by
  unfold runDiffStage at h
  dsimp only at h
  revert h
  cases hd : env.diff { path := sp, schemas := schemas, sources := sources, rules := rules, config := config } with
  | error e => intro h; simp at h
  | ok a =>
    intro h
    dsimp only at h
    split at h
    · simp [overrideStep_no_setFailed] at h
      exact h
    · simp [overrideStep_no_setFailed] at h

theorem runBuildStage_setFailed (env : Env) (fob : Bool) (al : String)
    (pr : Option PullRequest) (rules : List Rule) (config : Option Config)
    (schemaRef : String) (schemaPath : Option String) (oldFile newFile : String) (m : String)
    (h : Event.setFailed m ∈
      (runBuildStage env fob al pr rules config schemaRef schemaPath oldFile newFile).events) :
    m = msgSchemaProblem := by
  unfold runBuildStage at h
  split at h
  · simp at h
  · split at h
    · split at h
      · simp at h
      · split at h
        · simp at h
        · split at h
          · simp at h
          · split at h
            · simp at h
            · dsimp only at h
              rw [mem_withEvents] at h
              rcases h with h | h
              · simp at h
              · exact runDiffStage_setFailed _ _ _ _ _ _ _ _ _ _ h
    · dsimp only at h
      split at h
      · simp at h
      · split at h
        · simp at h
        · rw [mem_withEvents] at h
          rcases h with h | h
          · simp at h
          · exact runDiffStage_setFailed _ _ _ _ _ _ _ _ _ _ h

theorem runLoadStage_setFailed (env : Env) (fob : Bool) (al : String)
    (pr : Option PullRequest) (rules : List Rule) (config : Option Config)
    (schemaRef : String) (schemaPath : Option String) (ref : String)
    (workspace : Option String) (m : String)
    (h : Event.setFailed m ∈
      (runLoadStage env fob al pr rules config schemaRef schemaPath ref workspace).events) :
    m = msgSchemaProblem := by
  unfold runLoadStage at h
  dsimp only at h
  rw [mem_withEvents] at h
  rcases h with h | h
  · simp at h
  · split at h
    · simp at h
    · simp at h
    · rw [mem_withEvents] at h
      rcases h with h | h
      · simp at h
      · exact runBuildStage_setFailed _ _ _ _ _ _ _ _ _ _ _ h

theorem runPointerStage_setFailed (env : Env) (um fob : Bool) (al : String)
    (pr : Option PullRequest) (rules : List Rule) (config : Option Config)
    (ref0 : String) (ws0 : Option String) (sp : String) (m : String)
    (h : Event.setFailed m ∈
      (runPointerStage env um fob al pr rules config ref0 ws0 sp).events) :
    m = msgSchemaProblem := by
  unfold runPointerStage at h
  dsimp only at h
  rw [mem_withEvents] at h
  rcases h with h | h
  · exact absurd h (resolveTargets_no_setFailed _ _ _ _ _ _)
  · exact runLoadStage_setFailed _ _ _ _ _ _ _ _ _ _ _ h

theorem runConfigStage_setFailed (env : Env) (um fob : Bool) (al : String)
    (pr : Option PullRequest) (rules : List Rule) (onUsage ref0 : String)
    (ws0 : Option String) (sp : String) (m : String)
    (h : Event.setFailed m ∈
      (runConfigStage env um fob al pr rules onUsage ref0 ws0 sp).events) :
    m = msgSchemaProblem := by
  unfold runConfigStage at h
  split at h
  · exact runPointerStage_setFailed _ _ _ _ _ _ _ _ _ _ _ h
  · split at h
    · simp at h
    · exact runPointerStage_setFailed _ _ _ _ _ _ _ _ _ _ _ h
    · exact runPointerStage_setFailed _ _ _ _ _ _ _ _ _ _ _ h

/-! # Claim C2 -/

/-- C2: rule resolution is all-or-nothing.  When at least one rule reference
fails to resolve, the run fails with the rules-not-recognised message and
the diff engine is never invoked; when every reference resolves, the run
proceeds past rule validation and the rules-not-recognised failure never
occurs. -/
theorem rules_all_or_nothing (env : Env)
    (hT : ¬ env.inputs.githubToken = "")
    (hW : jsStrFalsy env.githubWorkspace = false)
    (hS : ¬ env.inputs.schema = "") :
    ((∃ r ∈ getInputAsArray env.inputs.rules, env.resolveRule r = none) →
      Event.setFailed msgRulesNotRecognised ∈ (run env).events ∧
        ∀ d, Event.diffCall d ∉ (run env).events) ∧
    ((∀ r ∈ getInputAsArray env.inputs.rules, (env.resolveRule r).isSome) →
      Event.setFailed msgRulesNotRecognised ∉ (run env).events) := by
  rw [run_reaches env hT hW hS]
  constructor
  · intro hex
    have hlen : (((getInputAsArray env.inputs.rules).map env.resolveRule).filterMap id).length ≠
        (getInputAsArray env.inputs.rules).length := by
      rw [resolved_eq]
      exact Nat.ne_of_lt (length_filterMap_lt _ _ hex)
    constructor
    · rw [mem_withEvents]
      right
      unfold runRulesStage
      dsimp only
      rw [mem_withEvents]
      right
      rw [if_pos hlen]
      simp
    · intro d
      rw [mem_withEvents]
      rintro (h | h)
      · simp [startEvents] at h
      · unfold runRulesStage at h
        dsimp only at h
        rw [mem_withEvents] at h
        rcases h with h | h
        · rcases List.mem_filterMap.mp h with ⟨r, hr, hsome⟩
          revert hsome
          split <;> intro hsome <;> cases hsome
        · rw [if_pos hlen] at h
          simp at h
  · intro hall
    rw [mem_withEvents]
    rintro (h | h)
    · simp [startEvents] at h
    · rw [runRulesStage_pass env _ _ _ _ _ _ _ _ _ hall] at h
      exact absurd (runConfigStage_setFailed _ _ _ _ _ _ _ _ _ _ _ h) (by decide)

/-- C2 witness: the concrete run with the unresolvable rule reference
"badRule" fails with the rules-not-recognised message. -/
theorem rules_all_or_nothing_witness :
    Event.setFailed msgRulesNotRecognised ∈ (run envC2).events := by
  exact ((rules_all_or_nothing envC2 (by decide) (by decide) (by decide)).1
    ⟨"badRule", by decide, by decide⟩).1

/-! # Claim C4 -/

/-- C4 counterexample: for the pointer "master", which has no path segment,
the run does not fail with a configuration error before I/O — both schema
file loads are attempted (with an absent path) and the run then throws a
TypeError when computing the file extension. -/
theorem pointer_no_path_counterexample :
    Event.load { ref := "master", path := none, workspace := none } ∈ (run envC4).events ∧
    (run envC4).thrown = some msgTypeErrorUndefinedPath := by
  constructor <;> decide

/-- C4 amended: no validation of the path segment occurs.  For every run
reaching the pointer stage whose schema pointer has no path segment, a file
load is still attempted with an absent path (so I/O does happen), rather
than the run failing with a configuration error beforehand. -/
theorem pointer_no_path_loads_attempted (env : Env)
    (hT : ¬ env.inputs.githubToken = "")
    (hW : jsStrFalsy env.githubWorkspace = false)
    (hS : ¬ env.inputs.schema = "")
    (hR : ∀ r ∈ getInputAsArray env.inputs.rules, (env.resolveRule r).isSome)
    (hU : env.inputs.getUsage = "")
    (hP : (splitPointer env.inputs.schema).2 = none) :
    ∃ a : LoadArgs, a.path = none ∧ Event.load a ∈ (run env).events := by
  rw [run_reaches env hT hW hS, runRulesStage_pass env _ _ _ _ _ _ _ _ _ hR, hU]
  unfold runConfigStage
  rw [if_pos rfl]
  unfold runPointerStage
  dsimp only
  rw [hP]
  refine ⟨{ ref := (resolveTargets (castToBoolean env.inputs.experimentalMerge true)
      env.pullRequest env.githubSha env.githubWorkspace
      (splitPointer env.inputs.schema).1).schemaRef, path := none, workspace := none },
    rfl, ?_⟩
  rw [mem_withEvents]
  right
  rw [mem_withEvents]
  right
  unfold runLoadStage
  dsimp only
  rw [mem_withEvents]
  left
  exact List.mem_cons_self _ _

/-- C4 amended, witness: the concrete environment with pointer "master". -/
theorem pointer_no_path_loads_attempted_witness :
    ∃ a : LoadArgs, a.path = none ∧ Event.load a ∈ (run envC4).events := by
  exact pointer_no_path_loads_attempted envC4 (by decide) (by decide) (by decide)
    (by decide) (by decide) (by decide)

/-! # Claim C5 -/

/-- C5 counterexample: a usage hook whose load throws is not silently
ignored — the exception propagates, the run aborts, and the diff engine is
never invoked. -/
theorem usage_hook_counterexample :
    (run envC5).thrown = some "Cannot find module hook.js" ∧
    (run envC5).events.all (fun e => !isDiffCall e) = true := by
  constructor <;> decide

/-- C5 amended: only a hook that loads to an unusable (falsy) export is
silently treated as no usage check being configured — the run continues to
the pointer stage with no checkUsage entry in the config; a hook whose load
throws instead propagates the exception and aborts the run. -/
theorem usage_hook_falsy_ignored (env : Env) (um fob : Bool) (al : String)
    (pr : Option PullRequest) (rules : List Rule) (g ref0 : String) (ws0 : Option String)
    (sp : String) (h1 : ¬ g = "") (h2 : env.requireHook g = Except.ok none) :
    runConfigStage env um fob al pr rules g ref0 ws0 sp =
      runPointerStage env um fob al pr rules none ref0 ws0 sp := by
  unfold runConfigStage
  rw [if_neg h1, h2]

/-- C5 amended, witness: the concrete hook "hook.js" loading to a falsy
export is ignored. -/
theorem usage_hook_falsy_ignored_witness :
    runConfigStage envA true false "lbl" none [] "hook.js" "sha" (some "/w")
        "master:schema.graphql" =
      runPointerStage envA true false "lbl" none [] none "sha" (some "/w")
        "master:schema.graphql" :=
  usage_hook_falsy_ignored envA true false "lbl" none [] "hook.js" "sha" (some "/w")
    "master:schema.graphql" (by decide) rfl

/-! # Claim C10 -/

theorem setOutput_runDiffStage (env : Env) (fob : Bool) (al : String)
    (pr : Option PullRequest) (rules : List Rule) (config : Option Config)
    (sp : String) (schemas : Schemas) (sources : Sources) (v : String) :
    (Event.setOutput "changes" v ∈
        (runDiffStage env fob al pr rules config sp schemas sources).events) ↔
      (∃ action,
        env.diff { path := sp, schemas := schemas, sources := sources, rules := rules, config := config } = Except.ok action ∧
        v = toString (jsOrZero (action.changes.getD []).length)) := by
  unfold runDiffStage
  dsimp only
  cases hd : env.diff { path := sp, schemas := schemas, sources := sources, rules := rules, config := config } with
  | error e => simp
  | ok a =>
    dsimp only
    constructor
    · intro h
      refine ⟨a, rfl, ?_⟩
      split at h <;> simp [overrideStep_no_setOutput] at h <;> exact h
    · rintro ⟨action, ha, hv⟩
      injection ha with ha
      subst ha
      subst hv
      split <;> simp

theorem resolveTargets_no_setOutput (um : Bool) (pr : Option PullRequest) (ref0 : String)
    (ws0 : Option String) (sr0 : String) (k v : String) :
    Event.setOutput k v ∉ (resolveTargets um pr ref0 ws0 sr0).events := by
  unfold resolveTargets
  cases pr with
  | none => simp
  | some p =>
    dsimp only
    split <;> (try split) <;> (try split) <;> simp

theorem resolveTargets_setPRLabels (um : Bool) (pr : Option PullRequest)
    (ls : Option (List PRLabel)) (ref0 : String) (ws0 : Option String) (sr0 : String) :
    resolveTargets um (setPRLabels pr ls) ref0 ws0 sr0 =
      resolveTargets um pr ref0 ws0 sr0 := by
  cases pr with
  | none => rfl
  | some p => rfl

theorem setOutput_runDiffStage_frame (env : Env) (fob1 fob2 : Bool) (al1 al2 : String)
    (pr1 pr2 : Option PullRequest) (rules : List Rule) (config : Option Config)
    (sp : String) (schemas : Schemas) (sources : Sources) (v : String) :
    (Event.setOutput "changes" v ∈
        (runDiffStage env fob1 al1 pr1 rules config sp schemas sources).events) ↔
      (Event.setOutput "changes" v ∈
        (runDiffStage env fob2 al2 pr2 rules config sp schemas sources).events) := by
  rw [setOutput_runDiffStage, setOutput_runDiffStage]

theorem setOutput_runBuildStage_frame (env : Env) (fob1 fob2 : Bool) (al1 al2 : String)
    (pr1 pr2 : Option PullRequest) (rules : List Rule) (config : Option Config)
    (schemaRef : String) (schemaPath : Option String) (oldFile newFile : String) (v : String) :
    (Event.setOutput "changes" v ∈
        (runBuildStage env fob1 al1 pr1 rules config schemaRef schemaPath oldFile newFile).events) ↔
      (Event.setOutput "changes" v ∈
        (runBuildStage env fob2 al2 pr2 rules config schemaRef schemaPath oldFile newFile).events) := by
  unfold runBuildStage
  cases schemaPath with
  | none => exact Iff.rfl
  | some sp =>
    dsimp only
    by_cases hext : extname (jsToLower sp) = ".json"
    · simp only [if_pos hext]
      cases env.jsonParse oldFile with
      | error e => exact Iff.rfl
      | ok iOld =>
        dsimp only
        cases env.buildClientSchema iOld with
        | error e => exact Iff.rfl
        | ok sOld =>
          dsimp only
          cases env.jsonParse newFile with
          | error e => exact Iff.rfl
          | ok iNew =>
            dsimp only
            cases env.buildClientSchema iNew with
            | error e => exact Iff.rfl
            | ok sNew =>
              dsimp only
              rw [mem_withEvents, mem_withEvents]
              exact or_congr Iff.rfl
                (setOutput_runDiffStage_frame env fob1 fob2 al1 al2 pr1 pr2 rules config sp _ _ v)
    · simp only [if_neg hext]
      try dsimp only
      cases env.produceSchema { body := oldFile, name := schemaRef ++ ":" ++ sp } with
      | error e => exact Iff.rfl
      | ok oldSchema =>
        dsimp only
        cases env.produceSchema { body := newFile, name := sp } with
        | error e => exact Iff.rfl
        | ok newSchema =>
          dsimp only
          rw [mem_withEvents, mem_withEvents]
          exact or_congr Iff.rfl
            (setOutput_runDiffStage_frame env fob1 fob2 al1 al2 pr1 pr2 rules config sp _ _ v)

theorem setOutput_runLoadStage_frame (env : Env) (fob1 fob2 : Bool) (al1 al2 : String)
    (pr1 pr2 : Option PullRequest) (rules : List Rule) (config : Option Config)
    (schemaRef : String) (schemaPath : Option String) (ref : String)
    (workspace : Option String) (v : String) :
    (Event.setOutput "changes" v ∈
        (runLoadStage env fob1 al1 pr1 rules config schemaRef schemaPath ref workspace).events) ↔
      (Event.setOutput "changes" v ∈
        (runLoadStage env fob2 al2 pr2 rules config schemaRef schemaPath ref workspace).events) := by
  unfold runLoadStage
  try dsimp only
  rw [mem_withEvents, mem_withEvents]
  apply or_congr Iff.rfl
  cases env.loadFile { ref := schemaRef, path := schemaPath, workspace := none } with
  | error e => exact Iff.rfl
  | ok oldFile =>
    try dsimp only
    cases env.loadFile { ref := ref, path := schemaPath, workspace := workspace } with
    | error e => exact Iff.rfl
    | ok newFile =>
      try dsimp only
      rw [mem_withEvents, mem_withEvents]
      exact or_congr Iff.rfl
        (setOutput_runBuildStage_frame env fob1 fob2 al1 al2 pr1 pr2 rules config
          schemaRef schemaPath oldFile newFile v)

theorem setOutput_runPointerStage_frame (env : Env) (um fob1 fob2 : Bool) (al1 al2 : String)
    (pr : Option PullRequest) (ls : Option (List PRLabel)) (rules : List Rule)
    (config : Option Config) (ref0 : String) (ws0 : Option String) (sp : String) (v : String) :
    (Event.setOutput "changes" v ∈
        (runPointerStage env um fob1 al1 pr rules config ref0 ws0 sp).events) ↔
      (Event.setOutput "changes" v ∈
        (runPointerStage env um fob2 al2 (setPRLabels pr ls) rules config ref0 ws0 sp).events) := by
  unfold runPointerStage
  dsimp only
  rw [resolveTargets_setPRLabels]
  rw [mem_withEvents, mem_withEvents]
  exact or_congr Iff.rfl
    (setOutput_runLoadStage_frame env fob1 fob2 al1 al2 pr (setPRLabels pr ls) rules config
      _ _ _ _ v)

theorem setOutput_runConfigStage_frame (env : Env) (um fob1 fob2 : Bool) (al1 al2 : String)
    (pr : Option PullRequest) (ls : Option (List PRLabel)) (rules : List Rule)
    (onUsage ref0 : String) (ws0 : Option String) (sp : String) (v : String) :
    (Event.setOutput "changes" v ∈
        (runConfigStage env um fob1 al1 pr rules onUsage ref0 ws0 sp).events) ↔
      (Event.setOutput "changes" v ∈
        (runConfigStage env um fob2 al2 (setPRLabels pr ls) rules onUsage ref0 ws0 sp).events) := by
  unfold runConfigStage
  by_cases hg : onUsage = ""
  · simp only [if_pos hg]
    exact setOutput_runPointerStage_frame env um fob1 fob2 al1 al2 pr ls rules none ref0 ws0 sp v
  · simp only [if_neg hg]
    cases env.requireHook onUsage with
    | error e => exact Iff.rfl
    | ok o =>
      cases o with
      | none =>
        exact setOutput_runPointerStage_frame env um fob1 fob2 al1 al2 pr ls rules none
          ref0 ws0 sp v
      | some cu =>
        exact setOutput_runPointerStage_frame env um fob1 fob2 al1 al2 pr ls rules
          (some { checkUsage := cu }) ref0 ws0 sp v

theorem setOutput_runRulesStage_frame (env : Env) (um fob1 fob2 : Bool) (al1 al2 : String)
    (pr : Option PullRequest) (ls : Option (List PRLabel)) (rl : List String)
    (onUsage ref0 : String) (ws0 : Option String) (sp : String) (v : String) :
    (Event.setOutput "changes" v ∈
        (runRulesStage env um fob1 al1 pr rl onUsage ref0 ws0 sp).events) ↔
      (Event.setOutput "changes" v ∈
        (runRulesStage env um fob2 al2 (setPRLabels pr ls) rl onUsage ref0 ws0 sp).events) := by
  unfold runRulesStage
  dsimp only
  rw [mem_withEvents, mem_withEvents]
  apply or_congr Iff.rfl
  by_cases hlen : ((rl.map env.resolveRule).filterMap id).length ≠ rl.length
  · simp only [if_pos hlen]
  · simp only [if_neg hlen]
    exact setOutput_runConfigStage_frame env um fob1 fob2 al1 al2 pr ls
      ((rl.map env.resolveRule).filterMap id) onUsage ref0 ws0 sp v

/-- C10: the reported `changes` output is independent of the
conclusion-override policy — changing the fail-on-breaking input and the
pull request's labels (the two inputs of the override) never changes which
`changes` output value the run emits. -/
theorem changes_output_frame (env : Env) (fobIn : String) (ls : Option (List PRLabel))
    (v : String) :
    (Event.setOutput "changes" v ∈ (run env).events) ↔
      (Event.setOutput "changes" v ∈
        (run { env with
               inputs := { env.inputs with failOnBreaking := fobIn },
               pullRequest := setPRLabels env.pullRequest ls }).events) := by
  have hswap : ∀ (um fob : Bool) (al : String) (pr : Option PullRequest) (rl : List String)
      (g r : String) (w : Option String) (s : String),
      runRulesStage
          { env with
            inputs := { env.inputs with failOnBreaking := fobIn },
            pullRequest := setPRLabels env.pullRequest ls }
          um fob al pr rl g r w s =
        runRulesStage env um fob al pr rl g r w s := fun _ _ _ _ _ _ _ _ _ => rfl
  unfold run startEvents
  dsimp only
  by_cases hT : env.inputs.githubToken = ""
  · simp only [if_pos hT]
  · simp only [if_neg hT]
    by_cases hW : jsStrFalsy env.githubWorkspace = true
    · simp only [if_pos hW]
    · simp only [if_neg hW]
      by_cases hS : env.inputs.schema = ""
      · simp only [if_pos hS]
      · simp only [if_neg hS]
        rw [mem_withEvents, mem_withEvents, hswap]
        exact or_congr Iff.rfl
          (setOutput_runRulesStage_frame env (castToBoolean env.inputs.experimentalMerge true)
            (castToBoolean env.inputs.failOnBreaking false) (castToBoolean fobIn false)
            (if env.inputs.approveLabel = "" then "approved-breaking-change"
              else env.inputs.approveLabel)
            (if env.inputs.approveLabel = "" then "approved-breaking-change"
              else env.inputs.approveLabel)
            env.pullRequest ls (getInputAsArray env.inputs.rules) env.inputs.getUsage
            env.githubSha env.githubWorkspace env.inputs.schema v)

end Inspector
